import Mathlib

/-!
Verification of the astro-shield client-side gate against its design notes.

The development shallowly embeds the two runtime scripts
(src/core/src/scripts/init_gate_protection.js and
src/core/src/scripts/runtime_honeypots.js): pure JS functions become Lean
functions, web storage becomes explicit state passing over a backend record,
JS numbers become Nat/Int with explicit modular reduction where 32-bit
wraparound matters, and fallible operations (storage access that may throw,
JSON.parse) become Option-valued functions or Option-valued parameters.
-/

/- ## Storage adapter (init_gate_protection.js, lines 175-222)

A web-storage backend is a key/value map together with flags recording
whether each operation throws (models storage disabled / quota exceeded /
private browsing).  The outer Option of each backend operation models the
JS exception: none means the call threw. -/

structure Backend where
  data : List (String × String)
  getFails : Bool
  setFails : Bool
  removeFails : Bool
deriving DecidableEq

def lookupKV (d : List (String × String)) (k : String) : Option String :=
  match d.find? (fun e => e.1 == k) with
  | some e => some e.2
  | none => none

def backendGet (b : Backend) (k : String) : Option (Option String) :=
  if b.getFails then none else some (lookupKV b.data k)

def backendSet (b : Backend) (k v : String) : Option Backend :=
  if b.setFails then none else some { b with data := (k, v) :: b.data }

def backendRemove (b : Backend) (k : String) : Option Backend :=
  if b.removeFails then none else some { b with data := b.data.filter (fun e => e.1 != k) }

/-- storage.get: try localStorage first; a thrown get or a null result falls
through to sessionStorage; a thrown session get yields null. -/
def storageGet (l s : Backend) (k : String) : Option String :=
  match backendGet l k with
  | some (some v) => some v
  | _ =>
    match backendGet s k with
    | some r => r
    | none => none

/-- storage.set: attempt both backends independently; report true if either
write succeeded; a backend that throws is left unchanged. -/
def storageSet (l s : Backend) (k v : String) : Bool × Backend × Backend :=
  match backendSet l k v, backendSet s k v with
  | some l2, some s2 => (true, l2, s2)
  | some l2, none => (true, l2, s)
  | none, some s2 => (true, l, s2)
  | none, none => (false, l, s)

/-- storage.remove: attempt both backends independently; report true if
either removal succeeded; a backend that throws is left unchanged. -/
def storageRemove (l s : Backend) (k : String) : Bool × Backend × Backend :=
  match backendRemove l k, backendRemove s k with
  | some l2, some s2 => (true, l2, s2)
  | some l2, none => (true, l2, s)
  | none, some s2 => (true, l, s2)
  | none, none => (false, l, s)

lemma lookupKV_cons_self (d : List (String × String)) (k v : String) :
    lookupKV ((k, v) :: d) k = some v := by
  simp [lookupKV, List.find?]

lemma backendSet_ok (b : Backend) (k v : String) (h : b.setFails = false) :
    backendSet b k v = some { b with data := (k, v) :: b.data } := by
  simp [backendSet, h]

lemma backendSet_throws (b : Backend) (k v : String) (h : b.setFails = true) :
    backendSet b k v = none := by
  simp [backendSet, h]

/-- Claim C5: the storage adapter never raises (it is a total function into
plain values); a read returns the persistent value when that backend yields
a non-null result, otherwise falls through to the session backend, otherwise
null; a write attempts both backends independently, returns true exactly when
at least one backend accepted the write, and leaves a throwing backend
untouched (silent no-op) while the accepting backend records the value. -/
theorem c5_storage_adapter (l s : Backend) (k v : String) :
    (l.getFails = false → ∀ w, lookupKV l.data k = some w → storageGet l s k = some w)
    ∧ ((l.getFails = true ∨ lookupKV l.data k = none) →
        storageGet l s k = (if s.getFails then none else lookupKV s.data k))
    ∧ ((storageSet l s k v).1 = true ↔ (l.setFails = false ∨ s.setFails = false))
    ∧ (l.setFails = true → (storageSet l s k v).2.1 = l)
    ∧ (s.setFails = true → (storageSet l s k v).2.2 = s)
    ∧ (l.setFails = false → lookupKV ((storageSet l s k v).2.1).data k = some v)
    ∧ (s.setFails = false → lookupKV ((storageSet l s k v).2.2).data k = some v) := by
  refine ⟨?_, ?_, ?_, ?_, ?_, ?_, ?_⟩
  · intro hg w hw
    simp [storageGet, backendGet, hg, hw]
  · intro h
    rcases h with hg | hnone
    · cases hs : s.getFails <;> simp [storageGet, backendGet, hg, hs]
    · cases hg : l.getFails <;> cases hs : s.getFails <;>
        simp [storageGet, backendGet, hg, hs, hnone]
  · cases hl : l.setFails <;> cases hs : s.setFails <;>
      simp [storageSet, backendSet, hl, hs]
  · intro hl
    cases hs : s.setFails <;> simp [storageSet, backendSet, hl, hs]
  · intro hs
    cases hl : l.setFails <;> simp [storageSet, backendSet, hl, hs]
  · intro hl
    cases hs : s.setFails <;>
      simp [storageSet, backendSet, hl, hs, lookupKV_cons_self]
  · intro hs
    cases hl : l.setFails <;>
      simp [storageSet, backendSet, hl, hs, lookupKV_cons_self]

/- ## Token validation (init_gate_protection.js, lines 226-235)

hasValidToken reads the token key, treats a falsy raw value (missing key or
empty string) as invalid, parses the JSON, and returns
Boolean(tokenData && tokenData.exp && tokenData.exp > Date.now()).

JSON.parse is modelled by an Option-valued parameter: none means the parse
threw.  A parsed value is abstracted to its JS-observable shape: whether it
is truthy, and its exp field (none when the field is missing or not a
number; a numeric exp of 0 is falsy in JS, which the embedding reflects). -/

structure JsToken where
  truthy : Bool
  exp : Option Int
deriving DecidableEq

def hasValidToken (parse : String → Option JsToken) (stored : Option String)
    (now : Nat) : Bool :=
  match stored with
  | none => false
  | some raw =>
    if raw = "" then false
    else
      match parse raw with
      | none => false
      | some t =>
        t.truthy &&
          (match t.exp with
           | none => false
           | some e => decide (e ≠ 0) && decide ((now : Int) < e))

/-- Claim C1: token validation fails closed and is repeatable: it returns
false on a missing key, on a raw value that does not parse as JSON, on a
parsed value without a numeric exp field, and on exp less than or equal to
now; it returns true whenever the parsed object is truthy and exp is
strictly greater than now; being a pure function of the stored string and
the clock, it never throws and repeated validation of the same unexpired
token keeps returning true at every instant before exp, without touching
storage.  The side condition records that the empty string is not valid
JSON, as for the real JSON.parse. -/
theorem c1_token_validation (parse : String → Option JsToken) (now : Nat)
    (hparse : parse "" = none) :
    hasValidToken parse none now = false
    ∧ (∀ raw, parse raw = none → hasValidToken parse (some raw) now = false)
    ∧ (∀ raw t, parse raw = some t → t.exp = none →
        hasValidToken parse (some raw) now = false)
    ∧ (∀ raw t e, parse raw = some t → t.exp = some e → e ≤ (now : Int) →
        hasValidToken parse (some raw) now = false)
    ∧ (∀ raw t e, parse raw = some t → t.truthy = true → t.exp = some e →
        (now : Int) < e → hasValidToken parse (some raw) now = true)
    ∧ (∀ raw t e (later : Nat), parse raw = some t → t.truthy = true →
        t.exp = some e → (later : Int) < e →
        hasValidToken parse (some raw) later = true) := by
  have htrue : ∀ (m : Nat) raw t e, parse raw = some t → t.truthy = true →
      t.exp = some e → (m : Int) < e → hasValidToken parse (some raw) m = true := by
    intro m raw t e hp ht he hlt
    have hraw : raw ≠ "" := by
      intro h
      rw [h, hparse] at hp
      exact Option.noConfusion hp
    have hne : e ≠ 0 := by
      intro h
      rw [h] at hlt
      omega
    simp [hasValidToken, hraw, hp, ht, he, hne, hlt]
  refine ⟨rfl, ?_, ?_, ?_, htrue now, fun raw t e later => htrue later raw t e⟩
  · intro raw hp
    by_cases hraw : raw = "" <;> simp [hasValidToken, hraw, hp]
  · intro raw t hp he
    by_cases hraw : raw = "" <;> simp [hasValidToken, hraw, hp, he]
  · intro raw t e hp he hle
    by_cases hraw : raw = "" <;>
      simp [hasValidToken, hraw, hp, he, not_lt.mpr hle]

/-- Witness for C1: a concrete parse table holding a token that expires at
5, validated at time 3. -/
theorem c1_token_validation_witness :
    hasValidToken
      (fun raw => if raw = "tok" then some ⟨true, some 5⟩ else none)
      (some "tok") 3 = true :=
  (c1_token_validation
      (fun raw => if raw = "tok" then some ⟨true, some 5⟩ else none) 3
      (by decide)).2.2.2.2.1 "tok" ⟨true, some 5⟩ 5 (by decide) rfl rfl (by decide)

/- ## Honeypot trip check (init_gate_protection.js, lines 237-272)

checkHoneypots walks the keys hp_tripped, hp_clicked, hp_focus.  A falsy
stored value is skipped.  For hp_tripped the timestamp is extracted: via
JSON.parse when it succeeds and yields a value with a numeric timestamp
field, otherwise via Number(raw); a truthy timestamp older than 10 minutes
deletes the trip record and its reason key and the loop continues,
otherwise any surviving truthy value returns true (blocks).

JSON.parse is again a parameter pj: none means the parse threw (so the
Number fallback runs); some none means it parsed to a value without a
numeric timestamp field; some (some t) yields t.  num models Number(raw),
with none for NaN. -/

def keyTripped (ns : String) : String := ns ++ "_hp_tripped"

def keyClicked (ns : String) : String := ns ++ "_hp_clicked"

def keyFocus (ns : String) : String := ns ++ "_hp_focus"

def keyReason (ns : String) : String := ns ++ "_hp_reason"

def extractTimestamp (pj : String → Option (Option Int)) (num : String → Option Int)
    (raw : String) : Option Int :=
  match pj raw with
  | some r => r
  | none => num raw

def rawTruthy (r : Option String) : Bool :=
  match r with
  | some v => !(v == "")
  | none => false

/-- The tail of the key loop: hp_clicked then hp_focus, each blocking on any
truthy stored value.  These iterations read storage but never change it. -/
def checkLaterKeys (l s : Backend) (ns : String) : Bool :=
  rawTruthy (storageGet l s (keyClicked ns)) || rawTruthy (storageGet l s (keyFocus ns))

def checkHoneypots (pj : String → Option (Option Int)) (num : String → Option Int)
    (l s : Backend) (now : Nat) (ns : String) : Bool × Backend × Backend :=
  match storageGet l s (keyTripped ns) with
  | none => (checkLaterKeys l s ns, l, s)
  | some raw =>
    if raw = "" then (checkLaterKeys l s ns, l, s)
    else
      match extractTimestamp pj num raw with
      | some t =>
        if (t != 0) && (decide ((now : Int) - t > 600000)) then
          let r1 := storageRemove l s (keyTripped ns)
          let r2 := storageRemove r1.2.1 r1.2.2 (keyReason ns)
          (checkLaterKeys r2.2.1 r2.2.2 ns, r2.2.1, r2.2.2)
        else (true, l, s)
      | none => (true, l, s)

/-- A backend with the trip record and its reason key deleted, in the order
the source deletes them. -/
def purgeTrip (b : Backend) (ns : String) : Backend :=
  { b with data := ((b.data.filter (fun e => e.1 != keyTripped ns)).filter
      (fun e => e.1 != keyReason ns)) }

lemma lookupKV_filter_self (d : List (String × String)) (k : String) :
    lookupKV (d.filter (fun e => e.1 != k)) k = none := by
  induction d with
  | nil => rfl
  | cons e d ih =>
    by_cases h : e.1 = k
    · simpa [List.filter_cons, h] using ih
    · simpa [List.filter_cons, h, lookupKV, List.find?_cons, bne_iff_ne] using ih

lemma lookupKV_filter_none (d : List (String × String)) (p : String × String → Bool)
    (k : String) (h : lookupKV d k = none) : lookupKV (d.filter p) k = none := by
  induction d with
  | nil => rfl
  | cons e d ih =>
    by_cases he : e.1 = k
    · simp [lookupKV, List.find?_cons, he] at h
    · have hd : lookupKV d k = none := by
        simpa [lookupKV, List.find?_cons, he] using h
      by_cases hp : p e
      · simpa [List.filter_cons, hp, lookupKV, List.find?_cons, he] using ih hd
      · simpa [List.filter_cons, hp] using ih hd

lemma lookupKV_purgeTrip_none (b : Backend) (ns k : String)
    (hk : k = keyTripped ns ∨ k = keyReason ns) :
    lookupKV (purgeTrip b ns).data k = none := by
  rcases hk with h | h
  · subst h
    exact lookupKV_filter_none _ _ _ (lookupKV_filter_self _ _)
  · subst h
    exact lookupKV_filter_self _ _

lemma storageGet_purge_none (l s : Backend) (ns : String) (k : String)
    (hk : k = keyTripped ns ∨ k = keyReason ns) :
    storageGet (purgeTrip l ns) (purgeTrip s ns) k = none := by
  have hl := lookupKV_purgeTrip_none l ns k hk
  have hs := lookupKV_purgeTrip_none s ns k hk
  have hgl : (purgeTrip l ns).getFails = l.getFails := rfl
  have hgs : (purgeTrip s ns).getFails = s.getFails := rfl
  cases h1 : l.getFails <;> cases h2 : s.getFails <;>
    simp [storageGet, backendGet, hgl, hgs, h1, h2, hl, hs]

/-- Claim C3 (amended): a trip record whose extracted timestamp is truthy
(nonzero) and more than 10 minutes old is treated as stale on the gate
check: the outcome and final state are exactly those of running the check
with the record absent, both the record key and the reason key are gone from
storage afterwards, and blocking is decided solely by the remaining keys.
The removeFails hypotheses state that the backends accept deletions. -/
theorem c3_stale_trip_cleared (pj : String → Option (Option Int))
    (num : String → Option Int) (l s : Backend) (now : Nat) (ns raw : String)
    (t : Int)
    (hraw : storageGet l s (keyTripped ns) = some raw) (hne : raw ≠ "")
    (hts : extractTimestamp pj num raw = some t) (ht0 : t ≠ 0)
    (hstale : (now : Int) - t > 600000)
    (hlr : l.removeFails = false) (hsr : s.removeFails = false) :
    checkHoneypots pj num l s now ns =
      (checkLaterKeys (purgeTrip l ns) (purgeTrip s ns) ns,
        purgeTrip l ns, purgeTrip s ns)
    ∧ checkHoneypots pj num l s now ns =
        checkHoneypots pj num (purgeTrip l ns) (purgeTrip s ns) now ns
    ∧ storageGet (purgeTrip l ns) (purgeTrip s ns) (keyTripped ns) = none
    ∧ storageGet (purgeTrip l ns) (purgeTrip s ns) (keyReason ns) = none := by
  have hT := storageGet_purge_none l s ns (keyTripped ns) (Or.inl rfl)
  have hR := storageGet_purge_none l s ns (keyReason ns) (Or.inr rfl)
  have hmain : checkHoneypots pj num l s now ns =
      (checkLaterKeys (purgeTrip l ns) (purgeTrip s ns) ns,
        purgeTrip l ns, purgeTrip s ns) := by
    simp only [checkHoneypots, hraw, hts]
    rw [if_neg hne]
    rw [if_pos (by simp [bne_iff_ne, ht0, hstale])]
    simp [storageRemove, backendRemove, hlr, hsr, purgeTrip]
  refine ⟨hmain, ?_, hT, hR⟩
  rw [hmain]
  simp [checkHoneypots, hT]

/-- Witness for C3: a trip record that parses to timestamp 5, checked at a
much later time on working backends, is purged and does not block. -/
theorem c3_stale_trip_cleared_witness :
    checkHoneypots (fun r => if r = "old" then some (some 5) else none)
      (fun _ => none)
      ⟨[(keyTripped "as", "old")], false, false, false⟩
      ⟨[], false, false, false⟩ 10000000 "as" =
      (checkLaterKeys
        (purgeTrip ⟨[(keyTripped "as", "old")], false, false, false⟩ "as")
        (purgeTrip ⟨[], false, false, false⟩ "as") "as",
       purgeTrip ⟨[(keyTripped "as", "old")], false, false, false⟩ "as",
       purgeTrip ⟨[], false, false, false⟩ "as") :=
  (c3_stale_trip_cleared (fun r => if r = "old" then some (some 5) else none)
    (fun _ => none) ⟨[(keyTripped "as", "old")], false, false, false⟩
    ⟨[], false, false, false⟩ 10000000 "as" "old" 5
    (by decide) (by decide) (by decide) (by decide) (by decide) rfl rfl).1

/-- Counterexample for C3 as frozen: a trip record whose timestamp is 0,
i.e. the epoch, far more than 10 minutes before the current time 1000000000,
is NOT treated as stale: the check blocks (returns true) and the record
stays in storage untouched, because JS treats the timestamp 0 as falsy in
the staleness test. -/
theorem c3_counterexample :
    (1000000000 : Int) - 0 > 600000
    ∧ checkHoneypots
        (fun r => if r = "\x7b\x22timestamp\x22:0\x7d" then some (some 0) else none)
        (fun _ => none)
        ⟨[(keyTripped "as", "\x7b\x22timestamp\x22:0\x7d")], false, false, false⟩
        ⟨[], false, false, false⟩ 1000000000 "as" =
        (true,
         ⟨[(keyTripped "as", "\x7b\x22timestamp\x22:0\x7d")], false, false, false⟩,
         ⟨[], false, false, false⟩) := by
  constructor
  · decide
  · decide

/-- Witness for C5: a concrete persistent backend holding the key returns
its value through the adapter. -/
theorem c5_storage_adapter_witness :
    storageGet ⟨[("k", "v")], false, false, false⟩ ⟨[], false, false, false⟩
      "k" = some "v" :=
  (c5_storage_adapter ⟨[("k", "v")], false, false, false⟩
    ⟨[], false, false, false⟩ "k" "w").1 rfl "v" (by decide)

/- ## Config sanitizers

init_gate_protection.js lines 86-118 define sanitizeNamespace,
sanitizePrefixInit (source name sanitizePrefix) and sanitizeGatePath;
runtime_honeypots.js lines 24-34 define a DIFFERENT sanitizePrefix that
keeps the stripped result even when it is empty.  A JS argument that is not
a string is modelled as none.  JS trim/toLowerCase are modelled by the Lean
String operations (they agree on ASCII input); the regex strip keeps exactly
the characters matching [a-z0-9_-]. -/

def isSafeChar (c : Char) : Bool :=
  (97 ≤ c.toNat && c.toNat ≤ 122) || (48 ≤ c.toNat && c.toNat ≤ 57) ||
    c == '_' || c == '-'

/-- The whitespace class removed by the JS String.prototype.trim (ASCII
whitespace, NBSP and BOM; the exotic Unicode space separators are omitted
from the model). -/
def isJsSpace (c : Char) : Bool :=
  c.toNat == 32 || (9 ≤ c.toNat && c.toNat ≤ 13) || c.toNat == 160 ||
    c.toNat == 65279

def jsTrim (s : String) : String :=
  String.mk (((s.data.dropWhile isJsSpace).reverse.dropWhile isJsSpace).reverse)

def jsLowerChar (c : Char) : Char :=
  if 65 ≤ c.toNat && c.toNat ≤ 90 then Char.ofNat (c.toNat + 32) else c

def jsToLower (s : String) : String :=
  String.mk (s.data.map jsLowerChar)

def sanitizeNamespace (value : Option String) (fallback : String) : String :=
  match value with
  | none => fallback
  | some v =>
    let normalized := String.mk ((jsToLower (jsTrim v)).data.filter isSafeChar)
    if normalized = "" then fallback else normalized

/-- The init-phase prefix sanitizer (init_gate_protection.js lines 97-107):
falls back both on an empty trim and on an empty strip result. -/
def sanitizePrefixInit (value : Option String) (fallback : String) : String :=
  match value with
  | none => fallback
  | some v =>
    let trimmed := jsToLower (jsTrim v)
    if trimmed = "" then fallback
    else
      let normalized := String.mk (trimmed.data.filter isSafeChar)
      if normalized = "" then fallback else normalized

/-- The runtime prefix sanitizer (runtime_honeypots.js lines 24-34): a
non-string falls back, an all-whitespace value yields the empty string, and
otherwise the stripped result is returned even when empty. -/
def sanitizePrefixRuntime (value : Option String) (fallback : String) : String :=
  match value with
  | none => fallback
  | some v =>
    let trimmed := jsTrim v
    if trimmed = "" then ""
    else String.mk ((jsToLower trimmed).data.filter isSafeChar)

def sanitizeGatePath (value : Option String) (fallback : String) : String :=
  match value with
  | none => fallback
  | some v =>
    let trimmed := jsTrim v
    if trimmed = "" then fallback
    else if trimmed.data.head? = some '/' then trimmed else "/" ++ trimmed

lemma safe_of_mem_filter {l : List Char} {c : Char}
    (h : c ∈ l.filter isSafeChar) : isSafeChar c = true :=
  (List.mem_filter.mp h).2

/-- Claim C4 (amended): every sanitizer output satisfies the grammar: all
characters of the sanitized namespace and prefixes lie in [a-z0-9_-]
whenever the fallback does, and the namespace and the init-phase prefixes
are never empty when the fallback is not.  The gate path always starts with
a slash when the fallback does.  The runtime prefix sanitizer, however, has
no fallback after stripping: the honeypot prefix and the decoy prefix it
produces may both be empty. -/
theorem c4_sanitizer_grammar (v : Option String) (fb : String)
    (hfb : ∀ c ∈ fb.data, isSafeChar c = true) (hne : fb ≠ "")
    (slashFb : String) (hslash : slashFb.data.head? = some '/') :
    (∀ c ∈ (sanitizeNamespace v fb).data, isSafeChar c = true)
    ∧ sanitizeNamespace v fb ≠ ""
    ∧ (∀ c ∈ (sanitizePrefixInit v fb).data, isSafeChar c = true)
    ∧ sanitizePrefixInit v fb ≠ ""
    ∧ (∀ c ∈ (sanitizePrefixRuntime v fb).data, isSafeChar c = true)
    ∧ (sanitizeGatePath v slashFb).data.head? = some '/' := by
  refine ⟨?_, ?_, ?_, ?_, ?_, ?_⟩
  · cases v with
    | none => exact hfb
    | some w =>
      by_cases h : String.mk ((jsToLower (jsTrim w)).data.filter isSafeChar) = "" <;>
        · intro c hc
          first
          | exact hfb c (by simpa [sanitizeNamespace, h] using hc)
          | exact safe_of_mem_filter (by simpa [sanitizeNamespace, h] using hc)
  · cases v with
    | none => exact hne
    | some w =>
      by_cases h : String.mk ((jsToLower (jsTrim w)).data.filter isSafeChar) = "" <;>
        simp [sanitizeNamespace, h, hne]
  · cases v with
    | none => exact hfb
    | some w =>
      by_cases ht : jsToLower (jsTrim w) = ""
      · intro c hc
        exact hfb c (by simpa [sanitizePrefixInit, ht] using hc)
      · by_cases h : String.mk ((jsToLower (jsTrim w)).data.filter isSafeChar) = "" <;>
          · intro c hc
            first
            | exact hfb c (by simpa [sanitizePrefixInit, ht, h] using hc)
            | exact safe_of_mem_filter (by simpa [sanitizePrefixInit, ht, h] using hc)
  · cases v with
    | none => exact hne
    | some w =>
      by_cases ht : jsToLower (jsTrim w) = ""
      · simp [sanitizePrefixInit, ht, hne]
      · by_cases h : String.mk ((jsToLower (jsTrim w)).data.filter isSafeChar) = "" <;>
          simp [sanitizePrefixInit, ht, h, hne]
  · cases v with
    | none => exact hfb
    | some w =>
      by_cases ht : jsTrim w = ""
      · simp [sanitizePrefixRuntime, ht]
      · intro c hc
        exact safe_of_mem_filter (by simpa [sanitizePrefixRuntime, ht] using hc)
  · cases v with
    | none => exact hslash
    | some w =>
      by_cases ht : jsTrim w = ""
      · simpa [sanitizeGatePath, ht] using hslash
      · by_cases hh : (jsTrim w).data.head? = some '/'
        · simp [sanitizeGatePath, ht, hh]
        · simp [sanitizeGatePath, ht, hh, String.data_append]

/-- Witness for C4: the default fallbacks as and /gate at a malformed
input. -/
theorem c4_sanitizer_grammar_witness :
    sanitizeNamespace (some "  Bad Name!! ") "as" ≠ "" :=
  (c4_sanitizer_grammar (some "  Bad Name!! ") "as" (by decide) (by decide)
    "/gate" (by decide)).2.1

/-- Counterexample for C4 as frozen: the runtime prefix sanitizer applied to
the honeypot prefix value with all characters outside [a-z0-9_-] returns the
empty string instead of falling back to hp, so the sanitized honeypot prefix
CAN be empty. -/
theorem c4_counterexample :
    sanitizePrefixRuntime (some "###") "hp" = "" ∧ "hp" ≠ "" := by
  constructor
  · decide
  · decide

/- ## Gate redirect URLs

buildGateRedirectUrl (init_gate_protection.js lines 279-285) and the
navigation performed by createTripHoneypot (runtime_honeypots.js lines
135-149).  encodeURIComponent is modelled byte-exactly for every Unicode
code point (unreserved characters pass through; every other character is
percent-encoded per UTF-8 byte with uppercase hex). -/

def hexUpper (n : Nat) : Char :=
  if n < 10 then Char.ofNat (48 + n) else Char.ofNat (55 + n)

def isUnreservedChar (c : Char) : Bool :=
  (65 ≤ c.toNat && c.toNat ≤ 90) || (97 ≤ c.toNat && c.toNat ≤ 122) ||
    (48 ≤ c.toNat && c.toNat ≤ 57) || c == '-' || c == '_' || c == '.' ||
    c == '!' || c == '~' || c == '*' || c == Char.ofNat 39 || c == '(' ||
    c == ')'

def utf8BytesOf (c : Char) : List Nat :=
  let n := c.toNat
  if n < 128 then [n]
  else if n < 2048 then [192 + n / 64, 128 + n % 64]
  else if n < 65536 then [224 + n / 4096, 128 + (n / 64) % 64, 128 + n % 64]
  else [240 + n / 262144, 128 + (n / 4096) % 64, 128 + (n / 64) % 64,
    128 + n % 64]

def encodeURIComponent (s : String) : String :=
  String.mk (s.data.map (fun c =>
    if isUnreservedChar c then [c]
    else (utf8BytesOf c).map
      (fun b => ['%', hexUpper (b / 16), hexUpper (b % 16)])
      |>.flatten)).flatten

/-- init_gate_protection.js lines 279-285: the URL a gated visitor is sent
to.  search is location.search (empty or starting with a question mark). -/
def buildGateRedirectUrl (gatePath currentPath search : String)
    (honeypotActive : Bool) : String :=
  let next := encodeURIComponent (currentPath ++ search)
  let separator := if gatePath.data.contains '?' then "&" else "?"
  if honeypotActive then gatePath ++ separator ++ "hp=1&next=" ++ next
  else gatePath ++ separator ++ "next=" ++ next

/-- runtime_honeypots.js lines 144-148: the URL a honeypot trip navigates
to. -/
def tripRedirectUrl (gatePath currentPath search reason : String) : String :=
  let next := encodeURIComponent (currentPath ++ search)
  let separator := if gatePath.data.contains '?' then "&" else "?"
  gatePath ++ separator ++ "hp=1&reason=" ++ reason ++ "&next=" ++ next

lemma string_append_assoc (a b c : String) : a ++ b ++ c = a ++ (b ++ c) := by
  apply congrArg String.mk
  simp [String.data_append, List.append_assoc]

/-- Claim C6 (amended): for a gate path containing no question mark, the
gate URL without an active honeypot is gatePath?next=E, with an active
honeypot it is gatePath?hp=1&next=E, and the trip-initiated navigation goes
to gatePath?hp=1&reason=R&next=E (the reason parameter sits between hp=1 and
next, not after next), where E is the url-encoded original path plus query
string. -/
theorem c6_gate_urls (g p q r : String) (hg : g.data.contains '?' = false) :
    buildGateRedirectUrl g p q false = g ++ "?next=" ++ encodeURIComponent (p ++ q)
    ∧ buildGateRedirectUrl g p q true =
        g ++ "?hp=1&next=" ++ encodeURIComponent (p ++ q)
    ∧ tripRedirectUrl g p q r =
        g ++ "?hp=1&reason=" ++ r ++ "&next=" ++ encodeURIComponent (p ++ q) := by
  have hsep : (if g.data.contains '?' then ("&" : String) else "?") = "?" := by
    rw [hg]
    rfl
  have hq : ("?" : String) ++ "next=" = "?next=" := by decide
  have hq2 : ("?" : String) ++ "hp=1&next=" = "?hp=1&next=" := by decide
  have hq3 : ("?" : String) ++ "hp=1&reason=" = "?hp=1&reason=" := by decide
  refine ⟨?_, ?_, ?_⟩
  · show g ++ (if g.data.contains '?' then "&" else "?") ++ "next=" ++ _ = _
    rw [hsep, string_append_assoc g "?" "next=", hq]
  · show g ++ (if g.data.contains '?' then "&" else "?") ++ "hp=1&next=" ++ _ = _
    rw [hsep, string_append_assoc g "?" "hp=1&next=", hq2]
  · show g ++ (if g.data.contains '?' then "&" else "?") ++ "hp=1&reason=" ++ r
      ++ "&next=" ++ _ = _
    rw [hsep, string_append_assoc g "?" "hp=1&reason=", hq3]

/-- Witness for C6: concrete gate URL for a visitor on /a with no query
string. -/
theorem c6_gate_urls_witness :
    buildGateRedirectUrl "/gate" "/a" "" false =
      "/gate" ++ "?next=" ++ encodeURIComponent ("/a" ++ "") :=
  (c6_gate_urls "/gate" "/a" "" "r" (by decide)).1

/-- Counterexample for C6 as frozen: the trip-initiated redirect places the
reason parameter between hp=1 and next, so the URL is not of the claimed
shape gatePath?hp=1&next=E&reason=R. -/
theorem c6_counterexample :
    tripRedirectUrl "/gate" "/a" "" "r" = "/gate?hp=1&reason=r&next=%2Fa"
    ∧ ("/gate?hp=1&reason=r&next=%2Fa" : String) ≠
        "/gate?hp=1&next=%2Fa&reason=r" := by
  constructor
  · decide
  · decide

/- ## Reason codes (runtime_honeypots.js, lines 72-99)

generateHash drops falsy (empty) parts, joins the rest with a vertical bar,
folds a multiply-by-31 hash reduced to 32 bits unsigned at every step
(charCodeAt agrees with the code point on the BMP strings involved), renders
it in base 36 (JS Number.prototype.toString(36)), then keeps the last 8
characters or left-pads with zeros to 8.  buildReason picks the prefix by
trap type, hashes namespace, prefix, type, detail, extra detail and the
stringified 10-minute time bucket, and namespaces the result.

The base-36 and decimal renderings use a fuel argument of 64, enough for
every number below 36 to the 64th power, hence for every value reachable
here (hashes are below 2 to the 32nd). -/

def filterTruthy (parts : List String) : List String :=
  parts.filter (fun p => !(p == ""))

def joinBar : List String → String
  | [] => ""
  | [x] => x
  | x :: xs => x ++ "|" ++ joinBar xs

def hash31 (s : String) : Nat :=
  s.data.foldl (fun h c => (h * 31 + c.toNat) % 4294967296) 0

def digitChar36 (d : Nat) : Char :=
  if d < 10 then Char.ofNat (48 + d) else Char.ofNat (87 + d)

def base36Aux : Nat → Nat → List Char
  | 0, _ => []
  | fuel + 1, n => if n = 0 then [] else digitChar36 (n % 36) :: base36Aux fuel (n / 36)

def toBase36 (n : Nat) : String :=
  if n = 0 then "0" else String.mk (base36Aux 64 n).reverse

def decimalAux : Nat → Nat → List Char
  | 0, _ => []
  | fuel + 1, n => if n = 0 then [] else Char.ofNat (48 + n % 10) :: decimalAux fuel (n / 10)

/-- JS String(n) for a nonnegative integer. -/
def natToString (n : Nat) : String :=
  if n = 0 then "0" else String.mk (decimalAux 64 n).reverse

/-- JS padStart(len, "0"). -/
def padZeros (s : String) (len : Nat) : String :=
  String.mk (List.replicate (len - s.length) '0' ++ s.data)

def generateHash (parts : List String) : String :=
  let b := toBase36 (hash31 (joinBar (filterTruthy parts)))
  if 8 ≤ b.length then String.mk (b.data.drop (b.length - 8)) else padZeros b 8

def timeBucketOf (now : Nat) : Nat := now / 600000

def buildReason (hpPfx dcPfx ns ty detail extra : String) (bucket : Nat) : String :=
  let pfx := if ty == "decoy" then dcPfx else hpPfx
  let h := generateHash [ns, pfx, ty, detail, extra, natToString bucket]
  let reasonValue := if pfx != "" then pfx ++ "_" ++ h else h
  ns ++ "_" ++ reasonValue

lemma hash31_lt (s : String) : hash31 s < 4294967296 := by
  have h : ∀ (l : List Char) (a : Nat), a < 4294967296 →
      l.foldl (fun h c => (h * 31 + c.toNat) % 4294967296) a < 4294967296 := by
    intro l
    induction l with
    | nil => intro a ha; exact ha
    | cons c l ih =>
      intro a ha
      exact ih _ (Nat.mod_lt _ (by norm_num))
  exact h s.data 0 (by norm_num)

lemma base36Aux_length_le (fuel : Nat) :
    ∀ n k, n < 36 ^ k → (base36Aux fuel n).length ≤ k := by
  induction fuel with
  | zero => intro n k _; simp [base36Aux]
  | succ fuel ih =>
    intro n k hn
    by_cases h0 : n = 0
    · simp [base36Aux, h0]
    · have hk : k ≠ 0 := by
        rintro rfl
        simp at hn
        omega
      obtain ⟨k', rfl⟩ := Nat.exists_eq_succ_of_ne_zero hk
      have hdiv : n / 36 < 36 ^ k' := by
        rw [Nat.div_lt_iff_lt_mul (by norm_num)]
        calc n < 36 ^ (k' + 1) := hn
          _ = 36 ^ k' * 36 := by ring
      simpa [base36Aux, h0] using Nat.succ_le_succ (ih (n / 36) k' hdiv)

lemma toBase36_length_le7 (n : Nat) (hn : n < 4294967296) :
    (toBase36 n).length ≤ 7 := by
  by_cases h0 : n = 0
  · simp [toBase36, h0]
    decide
  · have h36 : n < 36 ^ 7 := lt_of_lt_of_le hn (by norm_num)
    have := base36Aux_length_le 64 n 7 h36
    simpa [toBase36, h0, String.length] using this

lemma generateHash_eq_padZeros (parts : List String) :
    generateHash parts =
      padZeros (toBase36 (hash31 (joinBar (filterTruthy parts)))) 8 := by
  have hlen := toBase36_length_le7 _ (hash31_lt (joinBar (filterTruthy parts)))
  rw [generateHash]
  rw [if_neg (by omega)]

lemma generateHash_length (parts : List String) :
    (generateHash parts).length = 8 := by
  have hlen := toBase36_length_le7 _ (hash31_lt (joinBar (filterTruthy parts)))
  rw [generateHash_eq_padZeros]
  show (List.replicate _ '0' ++ _).length = 8
  rw [List.length_append, List.length_replicate]
  have hdata : (toBase36 (hash31 (joinBar (filterTruthy parts)))).data.length =
      (toBase36 (hash31 (joinBar (filterTruthy parts)))).length := rfl
  omega

lemma string_append_left_cancel {a b c : String} (h : a ++ b = a ++ c) :
    b = c := by
  have hd := congrArg String.data h
  rw [String.data_append, String.data_append] at hd
  have h2 := List.append_cancel_left hd
  cases b
  cases c
  exact congrArg String.mk h2

/-- Claim C9 (amended): the hash segment of a reason code is always exactly
8 characters: the base-36 rendering of the 32-bit multiply-by-31 rolling
hash of the bar-join of the non-empty inputs, left-padded with zeros (a
32-bit value has at most 7 base-36 digits, so the pad branch always runs and
nothing is truncated).  The full reason is ns_pfx_hash when the resolved
prefix is non-empty and ns_hash when it is empty. -/
theorem c9_reason_hash_structure (hpPfx dcPfx ns ty detail extra : String)
    (bucket : Nat) (pfx : String)
    (hpfx : pfx = if ty == "decoy" then dcPfx else hpPfx) :
    generateHash [ns, pfx, ty, detail, extra, natToString bucket] =
      padZeros (toBase36 (hash31 (joinBar (filterTruthy
        [ns, pfx, ty, detail, extra, natToString bucket])))) 8
    ∧ (generateHash [ns, pfx, ty, detail, extra, natToString bucket]).length = 8
    ∧ (pfx ≠ "" → buildReason hpPfx dcPfx ns ty detail extra bucket =
        ns ++ "_" ++ (pfx ++ "_" ++
          generateHash [ns, pfx, ty, detail, extra, natToString bucket]))
    ∧ (pfx = "" → buildReason hpPfx dcPfx ns ty detail extra bucket =
        ns ++ "_" ++
          generateHash [ns, pfx, ty, detail, extra, natToString bucket]) := by
  subst hpfx
  refine ⟨generateHash_eq_padZeros _, generateHash_length _, ?_, ?_⟩
  · intro hne
    simp only [buildReason]
    rw [if_pos (bne_iff_ne.mpr hne)]
  · intro he
    simp only [buildReason]
    rw [he]
    rfl

/-- Witness for C9: the default honeypot prefix at bucket 5. -/
theorem c9_reason_hash_structure_witness :
    buildReason "hp" "dc" "as" "honeypot" "x" "" 5 =
      "as" ++ "_" ++ ("hp" ++ "_" ++
        generateHash ["as", "hp", "honeypot", "x", "", natToString 5]) :=
  (c9_reason_hash_structure "hp" "dc" "as" "honeypot" "x" "" 5 "hp"
    (by decide)).2.2.1 (by decide)

/-- Counterexample for C9 as frozen: with an empty decoy prefix (which the
runtime sanitizer can produce) the reason is ns_hash, not the claimed
ns_pfx_hash shape, which would read as__hash here. -/
theorem c9_counterexample :
    buildReason "hp" "" "as" "decoy" "runtime_click_0" "lnk" 100 =
      "as" ++ "_" ++
        generateHash ["as", "", "decoy", "runtime_click_0", "lnk", natToString 100]
    ∧ buildReason "hp" "" "as" "decoy" "runtime_click_0" "lnk" 100 ≠
      "as" ++ "_" ++ ("" ++ "_" ++
        generateHash ["as", "", "decoy", "runtime_click_0", "lnk", natToString 100]) := by
  constructor
  · decide
  · decide

/-- Claim C7 (amended): reason codes are deterministic, so two trips of the
same trap in the same 10-minute bucket produce identical codes; two trips of
the same trap in different buckets produce different codes whenever the
underlying 32-bit hashes differ, which can fail: the hash has only 2^32
values, so distinct buckets can collide. -/
theorem c7_reason_bucket_stability (hpPfx dcPfx ns ty detail extra : String)
    (pfx : String) (hpfx : pfx = if ty == "decoy" then dcPfx else hpPfx)
    (b1 b2 : Nat) :
    (b1 = b2 → buildReason hpPfx dcPfx ns ty detail extra b1 =
        buildReason hpPfx dcPfx ns ty detail extra b2)
    ∧ (generateHash [ns, pfx, ty, detail, extra, natToString b1] ≠
         generateHash [ns, pfx, ty, detail, extra, natToString b2] →
        buildReason hpPfx dcPfx ns ty detail extra b1 ≠
          buildReason hpPfx dcPfx ns ty detail extra b2) := by
  subst hpfx
  constructor
  · intro h
    rw [h]
  · intro hne heq
    apply hne
    simp only [buildReason] at heq
    cases hpb : (if ty == "decoy" then dcPfx else hpPfx) != "" <;>
      rw [hpb] at heq
    · exact string_append_left_cancel heq
    · rw [if_pos rfl, if_pos rfl] at heq
      exact string_append_left_cancel (string_append_left_cancel heq)

/-- Witness for C7: buckets 0 and 1 of the same trap have different hashes
and hence different reason codes. -/
theorem c7_reason_bucket_stability_witness :
    buildReason "hp" "dc" "as" "honeypot" "x" "" 0 ≠
      buildReason "hp" "dc" "as" "honeypot" "x" "" 1 :=
  (c7_reason_bucket_stability "hp" "dc" "as" "honeypot" "x" "" "hp"
    (by decide) 0 1).2 (by decide)

/-- Counterexample for C7 as frozen: two trips of the same trap (namespace
as, prefix hp, type honeypot, detail rapid_clicks, empty extra) at times in
two DIFFERENT 10-minute buckets whose 32-bit hashes collide produce the SAME
reason code. -/
theorem c7_counterexample :
    timeBucketOf 4358328686670000000 ≠ timeBucketOf 2889530455882200000
    ∧ buildReason "hp" "dc" "as" "honeypot" "rapid_clicks" ""
        (timeBucketOf 4358328686670000000) =
      buildReason "hp" "dc" "as" "honeypot" "rapid_clicks" ""
        (timeBucketOf 2889530455882200000) := by
  constructor
  · decide
  · decide

/- ## Gate check (init_gate_protection.js, lines 224 and 274-307)

runGateCheck either reveals the document (sets visibility to visible and
returns without scheduling anything) or schedules a redirect to the gate
URL; the two outcomes are modelled as a GateAction.  exemptPaths is the
one-element list holding the configured gate path.  The token and honeypot
checks enter as the Booleans they produce. -/

inductive GateAction where
  | showContent
  | redirect (url : String)
deriving DecidableEq

def isPathExempt (currentPath : String) (ex : List String) : Bool :=
  ex.any (fun path =>
    currentPath == path || (path ++ "/").data.isPrefixOf currentPath.data)

def runGateCheck (gatePath currentPath search : String)
    (tokenValid honeypotActive : Bool) : GateAction :=
  if isPathExempt currentPath [gatePath] then .showContent
  else if !tokenValid || honeypotActive then
    .redirect (buildGateRedirectUrl gatePath currentPath search honeypotActive)
  else .showContent

/-- Claim C10: the gate page is always exempt: whenever the current path
equals the configured gate path or extends it past a slash, the page guard
shows the content and schedules no redirect, whatever the token and
honeypot state, so the gate page never redirects to itself. -/
theorem c10_gate_path_exempt (gatePath currentPath search : String)
    (tokenValid honeypotActive : Bool)
    (h : currentPath = gatePath ∨
      (gatePath ++ "/").data.isPrefixOf currentPath.data = true) :
    runGateCheck gatePath currentPath search tokenValid honeypotActive =
      .showContent := by
  have hex : isPathExempt currentPath [gatePath] = true := by
    rcases h with h | h
    · simp [isPathExempt, h]
    · simp only [isPathExempt, List.any_cons, List.any_nil, Bool.or_false,
        Bool.or_eq_true, beq_iff_eq]
      right
      rw [String.data_append] at h
      exact h
  rw [runGateCheck, if_pos hex]

/-- Witness for C10: a path strictly under the gate path, with no token and
an active honeypot, is still shown. -/
theorem c10_gate_path_exempt_witness :
    runGateCheck "/gate" "/gate/step" "" false true = .showContent :=
  c10_gate_path_exempt "/gate" "/gate/step" "" false true (Or.inr (by decide))

/- ## Rapid-click heuristic (runtime_honeypots.js, lines 239-257)

The click handler keeps rapidClicks and lastClickTime (both starting at 0)
and a latched fired flag for the trip: on each click, a gap below 100 ms
since the previous click increments rapidClicks and fires when the counter
exceeds 3; any larger gap resets the counter to 0.  Clicks are modelled as
the list of Date.now() values the handler sees.  Nat subtraction agrees
with the JS comparison now - last < 100 also when now < last, since a
negative difference is below 100 as well. -/

def rapidStep (st : Nat × Nat × Bool) (now : Nat) : Nat × Nat × Bool :=
  if now - st.2.1 < 100 then
    (st.1 + 1, now, st.2.2 || decide (st.1 + 1 > 3))
  else (0, now, st.2.2)

def rapidClickFires (ts : List Nat) : Bool :=
  (ts.foldl rapidStep (0, 0, false)).2.2

/-- The sub-100ms flags of the successive gaps, starting from the handler's
initial lastClickTime of 0. -/
def clickGaps (ts : List Nat) : List Bool :=
  List.zipWith (fun a b => decide (b - a < 100)) (0 :: ts) ts

/-- Whether at least 4 clicks (indices i through j with j at least i+3) fall
within one window shorter than 100 ms, for a time-ordered click list:
the frozen claim's trigger condition. -/
def hasFourClicksIn100 (ts : List Nat) : Bool :=
  (List.range ts.length).any fun i =>
    (List.range ts.length).any fun j =>
      decide (i + 3 ≤ j) && decide (ts.getD j 0 - ts.getD i 0 < 100)

def run4From : Nat → List Bool → Bool
  | _, [] => false
  | rc, true :: rest => decide (rc + 1 > 3) || run4From (rc + 1) rest
  | _, false :: rest => run4From 0 rest

lemma foldl_rapidStep_eq (ts : List Nat) : ∀ (rc last : Nat) (f : Bool),
    (ts.foldl rapidStep (rc, last, f)).2.2 =
      (f || run4From rc
        (List.zipWith (fun a b => decide (b - a < 100)) (last :: ts) ts)) := by
  induction ts with
  | nil =>
    intro rc last f
    simp [run4From]
  | cons t ts ih =>
    intro rc last f
    rw [List.foldl_cons, List.zipWith_cons_cons]
    by_cases h : t - last < 100
    · have hstep : rapidStep (rc, last, f) t =
          (rc + 1, t, f || decide (rc + 1 > 3)) := by
        simp [rapidStep, h]
      rw [hstep, ih]
      simp [run4From, h, Bool.or_assoc]
    · have hstep : rapidStep (rc, last, f) t = (0, t, f) := by
        simp [rapidStep, h]
      rw [hstep, ih]
      simp [run4From, h]

lemma take4_of_take_replicate {l : List Bool} {m : Nat} (h4 : 4 ≤ m)
    (h : l.take m = List.replicate m true) :
    l.take 4 = List.replicate 4 true := by
  have h2 := congrArg (List.take 4) h
  rw [List.take_take, List.take_replicate, Nat.min_eq_left h4] at h2
  exact h2

lemma run4From_iff (bs : List Bool) : ∀ rc,
    run4From rc bs = true ↔
      ((∃ m, 1 ≤ m ∧ 4 ≤ rc + m ∧ bs.take m = List.replicate m true) ∨
        ∃ i, (bs.drop i).take 4 = List.replicate 4 true) := by
  induction bs with
  | nil =>
    intro rc
    constructor
    · intro h
      exact absurd h (by simp [run4From])
    · rintro (⟨m, hm1, _, hm⟩ | ⟨i, hi⟩)
      · rw [List.take_nil] at hm
        have := congrArg List.length hm
        simp at this
        omega
      · simp at hi
  | cons b bs ih =>
    intro rc
    cases b
    · rw [show run4From rc (false :: bs) = run4From 0 bs from rfl, ih 0]
      constructor
      · rintro (⟨m, hm1, hm4, hm⟩ | ⟨i, hi⟩)
        · exact Or.inr ⟨1, take4_of_take_replicate (by omega) hm⟩
        · exact Or.inr ⟨i + 1, hi⟩
      · rintro (⟨m, hm1, hm4, hm⟩ | ⟨i, hi⟩)
        · obtain ⟨m', rfl⟩ := Nat.exists_eq_succ_of_ne_zero (by omega : m ≠ 0)
          rw [List.take_succ_cons, List.replicate_succ] at hm
          exact absurd (List.cons_eq_cons.mp hm).1 (by simp)
        · cases i with
          | zero =>
            rw [List.drop_zero, show List.replicate 4 true = true :: List.replicate 3 true
              from rfl] at hi
            exact absurd (List.cons_eq_cons.mp hi).1 (by simp)
          | succ i' => exact Or.inr ⟨i', hi⟩
    · rw [show run4From rc (true :: bs) =
          (decide (rc + 1 > 3) || run4From (rc + 1) bs) from rfl]
      rw [Bool.or_eq_true, decide_eq_true_iff, ih (rc + 1)]
      constructor
      · rintro (h3 | ⟨m, hm1, hm4, hm⟩ | ⟨i, hi⟩)
        · refine Or.inl ⟨1, le_refl 1, by omega, ?_⟩
          simp
        · refine Or.inl ⟨m + 1, by omega, by omega, ?_⟩
          rw [List.take_succ_cons, List.replicate_succ, hm]
        · exact Or.inr ⟨i + 1, hi⟩
      · rintro (⟨m, hm1, hm4, hm⟩ | ⟨i, hi⟩)
        · obtain ⟨m', rfl⟩ := Nat.exists_eq_succ_of_ne_zero (by omega : m ≠ 0)
          rw [List.take_succ_cons, List.replicate_succ] at hm
          have hm' := (List.cons_eq_cons.mp hm).2
          cases Nat.eq_zero_or_pos m' with
          | inl h0 =>
            subst h0
            exact Or.inl (by omega)
          | inr hpos =>
            exact Or.inr (Or.inl ⟨m', by omega, by omega, hm'⟩)
        · cases i with
          | zero =>
            rw [List.drop_zero, List.take_succ_cons,
              show List.replicate 4 true = true :: List.replicate 3 true from rfl] at hi
            have hm' := (List.cons_eq_cons.mp hi).2
            exact Or.inr (Or.inl ⟨3, by omega, by omega, hm'⟩)
          | succ i' => exact Or.inr (Or.inr ⟨i', hi⟩)

/-- Claim C8 (amended): the rapid-click trap fires exactly when the click
sequence contains 5 consecutive clicks with every one of the 4 intervening
gaps below 100 ms (the first gap of the sequence being measured against the
handler's initial lastClickTime of 0) — that is, when the gap list contains
a run of 4 consecutive sub-100ms gaps.  It does NOT fire merely because
more than 3 clicks fall inside one 100 ms window. -/
theorem c8_rapid_click_characterization (ts : List Nat) :
    rapidClickFires ts = true ↔
      ∃ i, ((clickGaps ts).drop i).take 4 = List.replicate 4 true := by
  rw [rapidClickFires, foldl_rapidStep_eq ts 0 0 false, Bool.false_or]
  rw [show List.zipWith (fun a b => decide (b - a < 100)) (0 :: ts) ts =
    clickGaps ts from rfl]
  rw [run4From_iff (clickGaps ts) 0]
  constructor
  · rintro (⟨m, hm1, hm4, hm⟩ | h)
    · exact ⟨0, by rw [List.drop_zero]; exact take4_of_take_replicate (by omega) hm⟩
    · exact h
  · exact Or.inr

/-- Counterexample for C8 as frozen: four clicks at 1000, 1030, 1060 and
1090 ms all lie inside a 90 ms window (more than 3 clicks within 100 ms),
yet the trap does not fire, because only 3 consecutive sub-100ms gaps
occur. -/
theorem c8_counterexample :
    hasFourClicksIn100 [1000, 1030, 1060, 1090] = true
    ∧ rapidClickFires [1000, 1030, 1060, 1090] = false := by
  constructor
  · decide
  · decide

/- ## Proof-of-work search -/

/-- Modelled from the spec: the PoW solver (the gate page script) is not
among the provided sources, only its configuration surface is; section 4.4
of the design describes it: repeatedly hash seed plus increasing nonce and
accept the first nonce whose digest meets the difficulty predicate, a
numeric threshold comparison equivalent to a fixed number of leading zero
bits.  The hash is an abstract digest function into bits-bit numbers. -/
def meetsDifficulty (bits difficulty digest : Nat) : Bool :=
  digest < 2 ^ (bits - difficulty)

/-- Modelled from the spec: the near-miss predicate relaxes the target by
nearMissThreshold bits. -/
def meetsNearMiss (bits difficulty thr digest : Nat) : Bool :=
  digest < 2 ^ (bits - difficulty + thr)

/-- Modelled from the spec: the digest of seed plus nonce. -/
def powDigest (digestOf : String → Nat) (seed : String) (n : Nat) : Nat :=
  digestOf (seed ++ natToString n)

/-- Modelled from the spec: the bounded exact search over increasing nonces,
returning the first nonce whose digest meets the difficulty predicate. -/
def powFindExact (digestOf : String → Nat) (seed : String)
    (bits difficulty maxNonce : Nat) : Option Nat :=
  (List.range maxNonce).find?
    (fun n => meetsDifficulty bits difficulty (powDigest digestOf seed n))

/-- Modelled from the spec: the nonce with the best (lowest) digest seen in
the search window, kept for near-miss acceptance. -/
def powBestNonce (digestOf : String → Nat) (seed : String)
    (maxNonce : Nat) : Option Nat :=
  (List.range maxNonce).foldl
    (fun acc n =>
      match acc with
      | none => some n
      | some m =>
        if powDigest digestOf seed n < powDigest digestOf seed m then some n
        else some m)
    none

inductive PowOutcome where
  | solvedExact (nonce : Nat)
  | solvedNear (nonce : Nat)
  | incomplete
deriving DecidableEq

/-- Modelled from the spec: a full solve attempt: the exact search first;
if it exhausts the window and near-misses are enabled, the best digest is
accepted when it meets the near-miss predicate; otherwise the attempt is
incomplete. -/
def powSolve (digestOf : String → Nat) (seed : String)
    (bits difficulty thr : Nat) (nearOn : Bool) (maxNonce : Nat) : PowOutcome :=
  match powFindExact digestOf seed bits difficulty maxNonce with
  | some n => .solvedExact n
  | none =>
    if nearOn then
      match powBestNonce digestOf seed maxNonce with
      | some m =>
        if meetsNearMiss bits difficulty thr (powDigest digestOf seed m) then
          .solvedNear m
        else .incomplete
      | none => .incomplete
    else .incomplete

/-- Claim C2: the PoW search is deterministic, so run twice with the same
seed and difficulty it produces the same outcome — in particular it finds a
solution the second time whenever it found one the first time, and it finds
an exact solution whenever one exists in the search window; every outcome
accepted as exact has a digest meeting the difficulty predicate, and every
outcome accepted as a near miss occurs only with near-misses enabled after
the exact search exhausted its window, with a digest meeting the near-miss
predicate. -/
theorem c2_pow_soundness (digestOf : String → Nat) (seed : String)
    (bits difficulty thr : Nat) (nearOn : Bool) (maxNonce : Nat) :
    (∀ r1 r2, r1 = powSolve digestOf seed bits difficulty thr nearOn maxNonce →
      r2 = powSolve digestOf seed bits difficulty thr nearOn maxNonce → r1 = r2)
    ∧ ((∃ n, n < maxNonce ∧
          meetsDifficulty bits difficulty (powDigest digestOf seed n) = true) →
        ∃ m, powSolve digestOf seed bits difficulty thr nearOn maxNonce =
          .solvedExact m)
    ∧ (∀ n, powSolve digestOf seed bits difficulty thr nearOn maxNonce =
          .solvedExact n →
        meetsDifficulty bits difficulty (powDigest digestOf seed n) = true)
    ∧ (∀ n, powSolve digestOf seed bits difficulty thr nearOn maxNonce =
          .solvedNear n →
        nearOn = true
        ∧ powFindExact digestOf seed bits difficulty maxNonce = none
        ∧ meetsNearMiss bits difficulty thr (powDigest digestOf seed n) = true) := by
  refine ⟨?_, ?_, ?_, ?_⟩
  · intro r1 r2 h1 h2
    rw [h1, h2]
  · rintro ⟨n, hn, hmeet⟩
    have hsome : (powFindExact digestOf seed bits difficulty maxNonce).isSome := by
      rw [powFindExact, List.find?_isSome]
      exact ⟨n, List.mem_range.mpr hn, hmeet⟩
    obtain ⟨m, hm⟩ := Option.isSome_iff_exists.mp hsome
    exact ⟨m, by rw [powSolve, hm]⟩
  · intro n h
    cases hf : powFindExact digestOf seed bits difficulty maxNonce with
    | some k =>
      have hk : k = n := by
        rw [powSolve, hf] at h
        exact PowOutcome.solvedExact.inj h
      subst hk
      rw [powFindExact] at hf
      exact List.find?_some
        (p := fun n => meetsDifficulty bits difficulty (powDigest digestOf seed n)) hf
    | none =>
      exfalso
      rw [powSolve, hf] at h
      cases nearOn with
      | false => exact PowOutcome.noConfusion h
      | true =>
        simp only [if_true] at h
        cases hb : powBestNonce digestOf seed maxNonce with
        | none => rw [hb] at h; exact PowOutcome.noConfusion h
        | some m =>
          rw [hb] at h
          cases hm : meetsNearMiss bits difficulty thr
              (powDigest digestOf seed m) <;> simp [hm] at h
  · intro n h
    cases hf : powFindExact digestOf seed bits difficulty maxNonce with
    | some k =>
      rw [powSolve, hf] at h
      exact absurd h (by simp)
    | none =>
      rw [powSolve, hf] at h
      cases nearOn with
      | false => exact absurd h (by simp)
      | true =>
        simp only [if_true] at h
        cases hb : powBestNonce digestOf seed maxNonce with
        | none =>
          rw [hb] at h
          exact absurd h (by simp)
        | some m =>
          rw [hb] at h
          cases hm : meetsNearMiss bits difficulty thr
              (powDigest digestOf seed m) with
          | false => simp [hm] at h
          | true =>
            simp only [hm, if_true] at h
            have hmn : m = n := PowOutcome.solvedNear.inj h
            subst hmn
            exact ⟨rfl, rfl, hm⟩

/-- Witness for C2: a toy digest (string length) at 8 bits and difficulty 5
solves exactly at nonce 0 and the accepted digest meets the predicate. -/
theorem c2_pow_soundness_witness :
    meetsDifficulty 8 5 (powDigest (fun s => s.length) "s" 0) = true :=
  (c2_pow_soundness (fun s => s.length) "s" 8 5 2 false 3).2.2.1 0 (by decide)
